import Mathlib

/-!
Shallow embedding of the billing/ledger engine of the telegram expense
tracking bot (src/src/services/billingService.ts), together with the
relevant part of the upstream command parser
(src/src/telegram/bot.ts, parseAmount).

Monetary values are exact decimals in the source (decimal.js); they are
embedded as rationals (ℚ). Database persistence stores every balance as
a fixed 6-decimal string via Decimal.toFixed(SCALE); the numeric value
of that stored string is modelled by toDbString (round half-up, away
from zero, at scale 6). Each ledger operation is a pure function from
the loaded group state and the submitted amount to the updated state,
the row written by saveState, the appended transaction record, and the
returned operation result; addReserve can fail, modelled with Except.
The db.transaction wrapper's rollback-on-throw semantics appear in the
sequence-level step function: a failed operation leaves the stored
state unchanged and appends no record.
-/

namespace Billing

/-- SCALE = 6 from billingService.ts: number of fractional digits used
for database storage. -/
def SCALE : ℕ := 6

/-- Numeric value of `value.toFixed(SCALE)` (decimal.js default rounding
ROUND_HALF_UP rounds halves away from zero). -/
def toDbString (value : ℚ) : ℚ :=
  if 0 ≤ value then (⌊value * 1000000 + 1/2⌋ : ℤ) / 1000000
  else -((⌊(-value) * 1000000 + 1/2⌋ : ℤ) / 1000000)

/-- GroupState from billingService.ts (the opaque database id is
omitted; it plays no role in the balance logic). -/
structure GroupState where
  reserve : ℚ
  pendingAmount : ℚ
  serviceRate : ℚ
deriving Repr, DecidableEq

/-- Result of calculateTotals. -/
structure Totals where
  serviceFee : ℚ
  total : ℚ
deriving Repr, DecidableEq

/-- calculateTotals from billingService.ts. -/
def calculateTotals (amount serviceRate : ℚ) : Totals :=
  let serviceFee := amount * serviceRate
  let total := amount + serviceFee
  { serviceFee := serviceFee, total := total }

/-- The balance columns written by saveState (values as stored, i.e.
after toFixed(SCALE)). -/
structure SavedRow where
  reserveBalance : ℚ
  pendingAmount : ℚ
deriving Repr, DecidableEq

/-- saveState from billingService.ts: persists the group's balances at
fixed scale. -/
def saveState (state : GroupState) : SavedRow :=
  { reserveBalance := toDbString state.reserve,
    pendingAmount := toDbString state.pendingAmount }

/-- A transactions row appended by recordTransaction (the free-text
note and timestamps are omitted). -/
structure TransactionRecord where
  type : String
  amount : ℚ
  reserveAfter : ℚ
  pendingAmountAfter : ℚ
deriving Repr, DecidableEq

/-- recordTransaction from billingService.ts: snapshots the group's
balances, at fixed scale, onto the appended row. -/
def recordTransaction (group : GroupState) (type : String) (amount : ℚ) :
    TransactionRecord :=
  { type := type, amount := amount,
    reserveAfter := toDbString group.reserve,
    pendingAmountAfter := toDbString group.pendingAmount }

/-- OperationResult from billingService.ts (message string omitted). -/
structure OperationResult where
  state : GroupState
  amount : ℚ
  serviceFee : ℚ
  total : ℚ
  rechargePrincipal : ℚ
  pendingBefore : ℚ
  reserveDelta : ℚ
deriving Repr, DecidableEq

/-- Everything a successful mutating operation produces inside its
transaction: the returned result, the saveState row, and the single
appended transaction record. -/
structure OpOutcome where
  result : OperationResult
  saved : SavedRow
  record : TransactionRecord
deriving Repr, DecidableEq

/-- addPendingAmount from billingService.ts (CreditPending), acting on
the loaded group state. -/
def addPendingAmount (group0 : GroupState) (amount : ℚ) : OpOutcome :=
  let pendingBefore := group0.pendingAmount
  let reserveBefore := group0.reserve
  let spendAmount := amount
  let t := calculateTotals spendAmount group0.serviceRate
  let group :=
    if t.total ≥ 0 then
      let reserveUsed := min reserveBefore t.total
      let pendingIncrease := t.total - reserveUsed
      { group0 with
          reserve := reserveBefore - reserveUsed,
          pendingAmount := pendingBefore + pendingIncrease }
    else
      let credit := -t.total
      let pendingReduction := min pendingBefore credit
      let reserveIncrease := credit - pendingReduction
      { group0 with
          pendingAmount := pendingBefore - pendingReduction,
          reserve := reserveBefore + reserveIncrease }
  let rechargePrincipal :=
    if t.total ≥ 0 then max (spendAmount - min reserveBefore t.total) 0
    else 0
  { result :=
      { state := group, amount := spendAmount, serviceFee := t.serviceFee,
        total := t.total, rechargePrincipal := rechargePrincipal,
        pendingBefore := pendingBefore,
        reserveDelta := group.reserve - reserveBefore },
    saved := saveState group,
    record := recordTransaction group "PENDING_ADD" spendAmount }

/-- reducePendingAmount from billingService.ts (ReducePending). -/
def reducePendingAmount (group0 : GroupState) (amount : ℚ) : OpOutcome :=
  let pendingBefore := group0.pendingAmount
  let payment := amount
  let appliedToPending := min pendingBefore payment
  let pendingAfter := pendingBefore - appliedToPending
  let overpay := payment - appliedToPending
  let group1 := { group0 with pendingAmount := pendingAfter }
  let group :=
    if overpay > 0 then { group1 with reserve := group1.reserve + overpay }
    else group1
  { result :=
      { state := group, amount := payment, serviceFee := 0,
        total := -payment, rechargePrincipal := 0,
        pendingBefore := pendingBefore, reserveDelta := overpay },
    saved := saveState group,
    record := recordTransaction group "PENDING_REDUCE" payment }

/-- The only typed failure the engine itself raises (the thrown
"待支付金额不足，无法入账" error in addReserve). -/
inductive BillingError where
  | insufficientPending
deriving Repr, DecidableEq

/-- addReserve from billingService.ts (DepositToReserve); throwing
inside db.transaction aborts the transaction, so failure produces no
outcome. -/
def addReserve (group0 : GroupState) (amount : ℚ) :
    Except BillingError OpOutcome :=
  let pendingBefore := group0.pendingAmount
  let t := calculateTotals amount group0.serviceRate
  if group0.pendingAmount < t.total then
    .error .insufficientPending
  else
    let group := { group0 with
        reserve := group0.reserve + amount,
        pendingAmount := group0.pendingAmount - t.total }
    .ok
      { result :=
          { state := group, amount := amount, serviceFee := t.serviceFee,
            total := t.total, rechargePrincipal := 0,
            pendingBefore := pendingBefore, reserveDelta := amount },
        saved := saveState group,
        record := recordTransaction group "DEPOSIT" amount }

/-- deductReserve from billingService.ts (WithdrawFromReserve). The
locally computed rechargePrincipal feeds pendingIncrease and the note,
but the returned result field is a fresh zero (source line 345). -/
def deductReserve (group0 : GroupState) (amount : ℚ) : OpOutcome :=
  let pendingBefore := group0.pendingAmount
  let reserveBefore := group0.reserve
  let usage := amount
  let reserveAfter := reserveBefore - usage
  let group :=
    if reserveAfter ≥ 0 then
      { group0 with reserve := reserveAfter }
    else
      let rechargePrincipal := -reserveAfter
      let pendingIncrease :=
        if rechargePrincipal > 0 then rechargePrincipal else 0
      { group0 with
          reserve := 0,
          pendingAmount := group0.pendingAmount + pendingIncrease }
  { result :=
      { state := group, amount := usage, serviceFee := 0, total := usage,
        rechargePrincipal := 0,
        pendingBefore := pendingBefore,
        reserveDelta := group.reserve - reserveBefore },
    saved := saveState group,
    record := recordTransaction group "DEPOSIT" usage }

/-- Outcome of updateGroupServiceRate: the in-memory state, the
service_rate column value written when the rate changed (none on the
early no-op return), and the optionally appended record. -/
structure RateUpdateOutcome where
  previousRate : ℚ
  nextRate : ℚ
  state : GroupState
  savedRate : Option ℚ
  record : Option TransactionRecord
deriving Repr, DecidableEq

/-- updateGroupServiceRate from billingService.ts (SetServiceRate). -/
def updateGroupServiceRate (group0 : GroupState) (serviceRate : ℚ) :
    RateUpdateOutcome :=
  let previousRate := group0.serviceRate
  let nextRate := serviceRate
  if previousRate = nextRate then
    { previousRate := previousRate, nextRate := nextRate,
      state := group0, savedRate := none, record := none }
  else
    let group := { group0 with serviceRate := nextRate }
    { previousRate := previousRate, nextRate := nextRate,
      state := group, savedRate := some (toDbString nextRate),
      record := some (recordTransaction group "SERVICE_RATE_UPDATE" 0) }

/-- The five ledger operations, for reasoning about sequences. -/
inductive Op where
  | creditPending (amount : ℚ)
  | reducePending (amount : ℚ)
  | depositToReserve (amount : ℚ)
  | withdrawFromReserve (amount : ℚ)
  | setServiceRate (rate : ℚ)
deriving Repr, DecidableEq

/-- Stored state after one committed operation: each successful balance
operation persists the saveState row (balances at fixed scale, the
service rate column untouched); a failed addReserve rolls back; a rate
update persists only the service_rate column, and only on change. -/
def step (g : GroupState) : Op → GroupState
  | .creditPending a =>
      let o := addPendingAmount g a
      { reserve := o.saved.reserveBalance,
        pendingAmount := o.saved.pendingAmount,
        serviceRate := g.serviceRate }
  | .reducePending a =>
      let o := reducePendingAmount g a
      { reserve := o.saved.reserveBalance,
        pendingAmount := o.saved.pendingAmount,
        serviceRate := g.serviceRate }
  | .depositToReserve a =>
      match addReserve g a with
      | .ok o =>
          { reserve := o.saved.reserveBalance,
            pendingAmount := o.saved.pendingAmount,
            serviceRate := g.serviceRate }
      | .error _ => g
  | .withdrawFromReserve a =>
      let o := deductReserve g a
      { reserve := o.saved.reserveBalance,
        pendingAmount := o.saved.pendingAmount,
        serviceRate := g.serviceRate }
  | .setServiceRate r =>
      let o := updateGroupServiceRate g r
      { g with serviceRate := o.savedRate.getD g.serviceRate }

/-- Records appended to the transaction log by one committed
operation. -/
def records (g : GroupState) : Op → List TransactionRecord
  | .creditPending a => [(addPendingAmount g a).record]
  | .reducePending a => [(reducePendingAmount g a).record]
  | .depositToReserve a =>
      match addReserve g a with
      | .ok o => [o.record]
      | .error _ => []
  | .withdrawFromReserve a => [(deductReserve g a).record]
  | .setServiceRate r => ((updateGroupServiceRate g r).record).toList

/-- A freshly created group row (schema defaults: reserve_balance '0',
pending_amount '0', service_rate '0'). -/
def freshGroup : GroupState := { reserve := 0, pendingAmount := 0, serviceRate := 0 }

/-- Both balances non-negative. -/
def nonNegBalances (g : GroupState) : Prop :=
  0 ≤ g.reserve ∧ 0 ≤ g.pendingAmount

instance (g : GroupState) : Decidable (nonNegBalances g) := by
  unfold nonNegBalances; infer_instance

/-- parseAmount from src/src/telegram/bot.ts. The raw command-text
token is modelled by the decimal value it parses to: none stands for an
absent, empty, or malformed token (new Decimal(raw) throwing). -/
def parseAmount (raw : Option ℚ) (allowNegative : Bool) : Option ℚ :=
  match raw with
  | none => none
  | some amount =>
      if amount = 0 then none
      else if ¬allowNegative ∧ amount < 0 then none
      else some amount

end Billing

namespace Billing

/-- A state whose balance fields are in stored form, i.e. fixed points
of the scale-6 rounding (every state loaded from the database is of
this shape, since the balance columns are written via toFixed). -/
def dbForm (g : GroupState) : Prop :=
  g.reserve = toDbString g.reserve ∧ g.pendingAmount = toDbString g.pendingAmount

theorem toDbString_nonneg {q : ℚ} (h : 0 ≤ q) : 0 ≤ toDbString q := by
  unfold toDbString
  rw [if_pos h]
  have hfl : (0 : ℤ) ≤ ⌊q * 1000000 + 1/2⌋ :=
    Int.le_floor.mpr (by push_cast; linarith)
  have h2 : (0 : ℚ) ≤ (⌊q * 1000000 + 1/2⌋ : ℤ) := by exact_mod_cast hfl
  positivity

theorem step_nonneg (g : GroupState) (op : Op) (hg : nonNegBalances g)
    (hdep : ∀ a, op = .depositToReserve a → 0 ≤ a) :
    nonNegBalances (step g op) := by
  obtain ⟨hr, hp⟩ := hg
  cases op with
  | creditPending a =>
      simp only [step, addPendingAmount, calculateTotals, saveState, nonNegBalances]
      split_ifs with h <;> dsimp only
      · exact ⟨toDbString_nonneg (by have := min_le_left g.reserve (a + a * g.serviceRate); linarith),
          toDbString_nonneg (by have := min_le_right g.reserve (a + a * g.serviceRate); linarith)⟩
      · exact ⟨toDbString_nonneg (by have := min_le_right g.pendingAmount (-(a + a * g.serviceRate)); linarith),
          toDbString_nonneg (by have := min_le_left g.pendingAmount (-(a + a * g.serviceRate)); linarith)⟩
  | reducePending a =>
      simp only [step, reducePendingAmount, saveState, nonNegBalances]
      split_ifs with h <;> dsimp only
      · exact ⟨toDbString_nonneg (by linarith),
          toDbString_nonneg (by have := min_le_left g.pendingAmount a; linarith)⟩
      · exact ⟨toDbString_nonneg hr,
          toDbString_nonneg (by have := min_le_left g.pendingAmount a; linarith)⟩
  | depositToReserve a =>
      have ha : 0 ≤ a := hdep a rfl
      simp only [step]
      cases hA : addReserve g a with
      | error e => exact ⟨hr, hp⟩
      | ok o =>
          simp only [addReserve, calculateTotals] at hA
          by_cases hc : g.pendingAmount < a + a * g.serviceRate
          · rw [if_pos hc] at hA
            exact absurd hA (by simp)
          · rw [if_neg hc] at hA
            obtain rfl := Except.ok.inj hA
            simp only [saveState, nonNegBalances]
            exact ⟨toDbString_nonneg (by linarith),
              toDbString_nonneg (by push_neg at hc; linarith)⟩
  | withdrawFromReserve a =>
      simp only [step, deductReserve, saveState, nonNegBalances]
      split_ifs with h h2 <;> dsimp only
      · exact ⟨toDbString_nonneg (by linarith), toDbString_nonneg hp⟩
      · exact ⟨toDbString_nonneg le_rfl, toDbString_nonneg (by linarith)⟩
      · exact ⟨toDbString_nonneg le_rfl, toDbString_nonneg (by linarith)⟩
  | setServiceRate r =>
      exact ⟨hr, hp⟩

theorem foldl_step_nonneg (ops : List Op) (g : GroupState)
    (hg : nonNegBalances g)
    (hdep : ∀ a, Op.depositToReserve a ∈ ops → 0 ≤ a) :
    nonNegBalances (List.foldl step g ops) := by
  induction ops generalizing g with
  | nil => exact hg
  | cons op rest ih =>
      simp only [List.foldl_cons]
      refine ih (step g op) (step_nonneg g op hg ?_) ?_
      · intro a ha
        exact hdep a (by rw [← ha]; exact List.mem_cons_self op rest)
      · intro a ha
        exact hdep a (List.mem_cons_of_mem _ ha)

/-- C1 counterexample: a DepositToReserve with amount -10 on a fresh
account (reserve 0, pending 0, rate 0) passes the insufficient-pending
check (0 is not less than -10), commits, and leaves reserve = -10 < 0,
so the non-negativity invariant fails for arbitrary decimal amounts. -/
theorem c1_nonneg_counterexample :
    (List.foldl step freshGroup [Op.depositToReserve (-10)]).reserve = -10 ∧
    (List.foldl step freshGroup [Op.depositToReserve (-10)]).reserve < 0 := by
  norm_num [List.foldl_cons, List.foldl_nil, step, addReserve, calculateTotals,
    freshGroup, saveState, toDbString]

/-- C1 (amended): starting from a fresh account, reserve and pending
stay non-negative after every committed operation of a sequence,
provided every DepositToReserve amount in the sequence is
non-negative (for arbitrary, possibly negative, amounts on the other
four operations and arbitrary rates). -/
theorem c1_nonneg_amended (ops pre suf : List Op) (hsplit : ops = pre ++ suf)
    (hdep : ∀ a, Op.depositToReserve a ∈ ops → 0 ≤ a) :
    nonNegBalances (List.foldl step freshGroup pre) :=
  foldl_step_nonneg pre freshGroup ⟨le_refl 0, le_refl 0⟩
    (fun a ha => hdep a (by subst hsplit; exact List.mem_append_left _ ha))

theorem c1_nonneg_amended_witness :
    nonNegBalances (List.foldl step freshGroup [Op.creditPending 100]) :=
  c1_nonneg_amended [Op.creditPending 100, Op.withdrawFromReserve 150]
    [Op.creditPending 100] [Op.withdrawFromReserve 150] rfl
    (fun a ha => by simp at ha)

/-- C2: CreditPending with amount a and rate r, where
total = a + a * r: on the net-debit branch (total >= 0) the new
balances are reserve - min reserve total and
pending + (total - min reserve total), with
rechargePrincipal = max (a - min reserve total) 0; on the net-credit
branch (total < 0, credit = -total) they are
pending - min pending credit and
reserve + (credit - min pending credit). -/
theorem c2_creditPending_balances (g : GroupState) (a : ℚ)
    (hr : 0 ≤ g.reserve) (hp : 0 ≤ g.pendingAmount) :
    (0 ≤ a + a * g.serviceRate →
      (addPendingAmount g a).result.state.reserve
          = g.reserve - min g.reserve (a + a * g.serviceRate) ∧
      (addPendingAmount g a).result.state.pendingAmount
          = g.pendingAmount + ((a + a * g.serviceRate) - min g.reserve (a + a * g.serviceRate)) ∧
      (addPendingAmount g a).result.rechargePrincipal
          = max (a - min g.reserve (a + a * g.serviceRate)) 0) ∧
    (a + a * g.serviceRate < 0 →
      (addPendingAmount g a).result.state.pendingAmount
          = g.pendingAmount - min g.pendingAmount (-(a + a * g.serviceRate)) ∧
      (addPendingAmount g a).result.state.reserve
          = g.reserve + ((-(a + a * g.serviceRate)) - min g.pendingAmount (-(a + a * g.serviceRate)))) := by
  simp only [addPendingAmount, calculateTotals]
  constructor
  · intro ht
    split_ifs with h
    · exact ⟨rfl, rfl, rfl⟩
    · exact absurd ht h
  · intro ht
    split_ifs with h
    · exact absurd h (by linarith)
    · exact ⟨rfl, rfl⟩

theorem c2_creditPending_balances_witness :
    (addPendingAmount { reserve := 200, pendingAmount := 0, serviceRate := 1/20 } 100).result.state.reserve = 95 ∧
    (addPendingAmount { reserve := 200, pendingAmount := 0, serviceRate := 1/20 } 100).result.state.pendingAmount = 0 ∧
    (addPendingAmount { reserve := 200, pendingAmount := 0, serviceRate := 1/20 } 100).result.rechargePrincipal = 0 := by
  have h := (c2_creditPending_balances
      { reserve := 200, pendingAmount := 0, serviceRate := 1/20 } 100
      (by norm_num) (by norm_num)).1 (by norm_num)
  obtain ⟨h1, h2, h3⟩ := h
  refine ⟨?_, ?_, ?_⟩
  · rw [h1]; norm_num
  · rw [h2]; norm_num
  · rw [h3]; norm_num

/-- C3: ReducePending with payment p: the new pending is
pendingBefore - min pendingBefore p, the new reserve gains the overpay
p - min pendingBefore p exactly when that overpay is positive, and the
new pending is never negative. -/
theorem c3_reducePending_balances (g : GroupState) (p : ℚ)
    (hp : 0 ≤ g.pendingAmount) :
    (reducePendingAmount g p).result.state.pendingAmount
        = g.pendingAmount - min g.pendingAmount p ∧
    (reducePendingAmount g p).result.state.reserve
        = (if p - min g.pendingAmount p > 0
            then g.reserve + (p - min g.pendingAmount p) else g.reserve) ∧
    0 ≤ (reducePendingAmount g p).result.state.pendingAmount := by
  simp only [reducePendingAmount]
  split_ifs with h
  · exact ⟨rfl, rfl, by simp [min_le_left]⟩
  · exact ⟨rfl, rfl, by simp [min_le_left]⟩

theorem c3_reducePending_balances_witness :
    (reducePendingAmount { reserve := 0, pendingAmount := 30, serviceRate := 0 } 50).result.state.pendingAmount = 0 ∧
    (reducePendingAmount { reserve := 0, pendingAmount := 30, serviceRate := 0 } 50).result.state.reserve = 20 := by
  have h := c3_reducePending_balances
      { reserve := 0, pendingAmount := 30, serviceRate := 0 } 50 (by norm_num)
  refine ⟨?_, ?_⟩
  · rw [h.1]; norm_num
  · rw [h.2.1]; norm_num

/-- C4: DepositToReserve with amount a fails with InsufficientPending
exactly when pendingBefore < total (total = a + a * rate); on failure
the stored state is unchanged (the transaction rolls back); on success
reserve grows by a and pending shrinks by total. -/
theorem c4_addReserve_insufficientPending (g : GroupState) (a : ℚ) :
    (addReserve g a = .error .insufficientPending
        ↔ g.pendingAmount < a + a * g.serviceRate) ∧
    (g.pendingAmount < a + a * g.serviceRate →
        step g (.depositToReserve a) = g) ∧
    (∀ o, addReserve g a = .ok o →
        o.result.state.reserve = g.reserve + a ∧
        o.result.state.pendingAmount = g.pendingAmount - (a + a * g.serviceRate)) := by
  refine ⟨⟨?_, ?_⟩, ?_, ?_⟩
  · intro h
    by_contra hc
    simp only [addReserve, calculateTotals, if_neg hc] at h
    exact Except.noConfusion h
  · intro h
    simp only [addReserve, calculateTotals, if_pos h]
  · intro h
    simp only [step, addReserve, calculateTotals, if_pos h]
  · intro o h
    simp only [addReserve, calculateTotals] at h
    by_cases hc : g.pendingAmount < a + a * g.serviceRate
    · rw [if_pos hc] at h
      exact absurd h (by simp)
    · rw [if_neg hc] at h
      obtain rfl := Except.ok.inj h
      exact ⟨rfl, rfl⟩

theorem c4_addReserve_insufficientPending_witness :
    addReserve { reserve := 0, pendingAmount := 50, serviceRate := 1/20 } 100
        = .error .insufficientPending ∧
    step { reserve := 0, pendingAmount := 50, serviceRate := 1/20 } (.depositToReserve 100)
        = { reserve := 0, pendingAmount := 50, serviceRate := 1/20 } := by
  constructor
  · exact (c4_addReserve_insufficientPending
      { reserve := 0, pendingAmount := 50, serviceRate := 1/20 } 100).1.mpr (by norm_num)
  · exact (c4_addReserve_insufficientPending
      { reserve := 0, pendingAmount := 50, serviceRate := 1/20 } 100).2.1 (by norm_num)

/-- C5: WithdrawFromReserve with usage u: if reserveBefore - u >= 0 the
reserve becomes reserveBefore - u and pending is unchanged; otherwise
reserve becomes 0 and pending grows by the shortfall -(reserveBefore - u)
with no service fee on this path; the appended record has type DEPOSIT. -/
theorem c5_deductReserve_balances (g : GroupState) (u : ℚ)
    (hr : 0 ≤ g.reserve) :
    (0 ≤ g.reserve - u →
      (deductReserve g u).result.state.reserve = g.reserve - u ∧
      (deductReserve g u).result.state.pendingAmount = g.pendingAmount) ∧
    (g.reserve - u < 0 →
      (deductReserve g u).result.state.reserve = 0 ∧
      (deductReserve g u).result.state.pendingAmount
          = g.pendingAmount + (-(g.reserve - u)) ∧
      (deductReserve g u).result.serviceFee = 0) ∧
    (deductReserve g u).record.type = "DEPOSIT" := by
  simp only [deductReserve, recordTransaction]
  refine ⟨fun h => ?_, fun h => ?_, ?_⟩
  · rw [if_pos (by linarith : g.reserve - u ≥ 0)]
    exact ⟨rfl, rfl⟩
  · rw [if_neg (by linarith : ¬ g.reserve - u ≥ 0),
      if_pos (by linarith : -(g.reserve - u) > 0)]
    exact ⟨rfl, rfl, trivial⟩
  · trivial

theorem c5_deductReserve_balances_witness :
    (deductReserve { reserve := 100, pendingAmount := 0, serviceRate := 0 } 150).result.state.reserve = 0 ∧
    (deductReserve { reserve := 100, pendingAmount := 0, serviceRate := 0 } 150).result.state.pendingAmount = 50 ∧
    (deductReserve { reserve := 100, pendingAmount := 0, serviceRate := 0 } 150).record.type = "DEPOSIT" := by
  have h := c5_deductReserve_balances
      { reserve := 100, pendingAmount := 0, serviceRate := 0 } 150 (by norm_num)
  have h2 := h.2.1 (by norm_num)
  refine ⟨h2.1, ?_, h.2.2⟩
  rw [h2.2.1]; norm_num

/-- C6 counterexample: WithdrawFromReserve with usage 150 on reserve
100 reports rechargePrincipal 0 in the returned result (source line
345 returns a fresh zero), strictly below the claimed shortfall
-(100 - 150) = 50. -/
theorem c6_rechargePrincipal_counterexample :
    (deductReserve { reserve := 100, pendingAmount := 0, serviceRate := 0 } 150).result.rechargePrincipal = 0 ∧
    (deductReserve { reserve := 100, pendingAmount := 0, serviceRate := 0 } 150).result.rechargePrincipal
      < -((100 : ℚ) - 150) := by
  refine ⟨rfl, ?_⟩
  norm_num [deductReserve]

/-- C6 (amended): the result record returned by WithdrawFromReserve
always carries rechargePrincipal = 0; the internally computed shortfall
-(reserveBefore - u) is added to pending when reserveBefore - u < 0 but
is not reported through the result field. -/
theorem c6_rechargePrincipal_amended (g : GroupState) (u : ℚ) :
    (deductReserve g u).result.rechargePrincipal = 0 ∧
    (g.reserve - u < 0 →
      (deductReserve g u).result.state.pendingAmount
          = g.pendingAmount + (-(g.reserve - u))) := by
  refine ⟨rfl, fun h => ?_⟩
  simp only [deductReserve]
  rw [if_neg (by linarith : ¬ g.reserve - u ≥ 0),
    if_pos (by linarith : -(g.reserve - u) > 0)]

theorem c6_rechargePrincipal_amended_witness :
    (deductReserve { reserve := 100, pendingAmount := 0, serviceRate := 0 } 150).result.rechargePrincipal = 0 ∧
    (deductReserve { reserve := 100, pendingAmount := 0, serviceRate := 0 } 150).result.state.pendingAmount
      = 0 + (-((100 : ℚ) - 150)) := by
  have h := c6_rechargePrincipal_amended
      { reserve := 100, pendingAmount := 0, serviceRate := 0 } 150
  exact ⟨h.1, h.2 (by norm_num)⟩

/-- C7: for every committed operation from a stored-form state, the
reserveAfter and pendingAmountAfter snapshot on the single appended
transaction record equals the reserve and pending persisted by that
same operation. -/
theorem c7_record_matches_saved (g : GroupState) (op : Op) (hg : dbForm g) :
    ∀ r ∈ records g op,
      r.reserveAfter = (step g op).reserve ∧
      r.pendingAmountAfter = (step g op).pendingAmount := by
  cases op with
  | creditPending a =>
      intro r hrec
      simp only [records, List.mem_singleton] at hrec
      subst hrec
      exact ⟨rfl, rfl⟩
  | reducePending a =>
      intro r hrec
      simp only [records, List.mem_singleton] at hrec
      subst hrec
      exact ⟨rfl, rfl⟩
  | depositToReserve a =>
      intro r hrec
      simp only [records] at hrec
      cases hA : addReserve g a with
      | error e => rw [hA] at hrec; simp at hrec
      | ok o =>
          rw [hA] at hrec
          simp only [List.mem_singleton] at hrec
          subst hrec
          simp only [step, hA]
          simp only [addReserve, calculateTotals] at hA
          by_cases hc : g.pendingAmount < a + a * g.serviceRate
          · rw [if_pos hc] at hA
            exact absurd hA (by simp)
          · rw [if_neg hc] at hA
            obtain rfl := Except.ok.inj hA
            exact ⟨rfl, rfl⟩
  | withdrawFromReserve a =>
      intro r hrec
      simp only [records, List.mem_singleton] at hrec
      subst hrec
      exact ⟨rfl, rfl⟩
  | setServiceRate rr =>
      intro r hrec
      simp only [records, updateGroupServiceRate] at hrec
      split_ifs at hrec with h
      · simp at hrec
      · simp only [Option.toList_some, List.mem_singleton] at hrec
        subst hrec
        simp only [step, updateGroupServiceRate, if_neg h, recordTransaction]
        exact ⟨hg.1.symm, hg.2.symm⟩

theorem c7_record_matches_saved_witness :
    (addPendingAmount freshGroup 100).record.reserveAfter
        = (step freshGroup (Op.creditPending 100)).reserve ∧
    (addPendingAmount freshGroup 100).record.pendingAmountAfter
        = (step freshGroup (Op.creditPending 100)).pendingAmount :=
  c7_record_matches_saved freshGroup (Op.creditPending 100)
    ⟨by norm_num [freshGroup, toDbString], by norm_num [freshGroup, toDbString]⟩
    (addPendingAmount freshGroup 100).record (by simp [records])

/-- C8 counterexample: on a fresh account (stored rate 0), two
consecutive SetServiceRate calls with the identical rate 0 append zero
transaction records, not exactly one: both calls hit the early no-op
return. -/
theorem c8_setServiceRate_counterexample :
    (records freshGroup (.setServiceRate 0)
      ++ records (step freshGroup (.setServiceRate 0)) (.setServiceRate 0)).length = 0 ∧
    (records freshGroup (.setServiceRate 0)
      ++ records (step freshGroup (.setServiceRate 0)) (.setServiceRate 0)).length < 1 := by
  norm_num [records, updateGroupServiceRate, step, freshGroup]

/-- C8 (amended): SetServiceRate with the current stored rate is a
committed no-op appending no record; with a different rate it sets the
rate (stored at scale 6), leaves both balances unchanged, and appends
exactly one SERVICE_RATE_UPDATE record with amount 0. Consequently two
consecutive calls with the identical rate r append zero records when
the stored rate already equals r, exactly one when r differs from the
stored rate and round-trips through scale-6 storage, and two when r
differs and does not round-trip (the first call stores the rounded
rate, so the second call still sees a different stored rate and writes
again); every such call succeeds. -/
theorem c8_setServiceRate_amended (g : GroupState) (r : ℚ) :
    (g.serviceRate = r →
      (updateGroupServiceRate g r).record = none ∧
      (updateGroupServiceRate g r).state = g ∧
      step g (.setServiceRate r) = g) ∧
    (g.serviceRate ≠ r →
      (updateGroupServiceRate g r).state.serviceRate = r ∧
      (updateGroupServiceRate g r).state.reserve = g.reserve ∧
      (updateGroupServiceRate g r).state.pendingAmount = g.pendingAmount ∧
      (step g (.setServiceRate r)).reserve = g.reserve ∧
      (step g (.setServiceRate r)).pendingAmount = g.pendingAmount ∧
      (updateGroupServiceRate g r).record
          = some { type := "SERVICE_RATE_UPDATE", amount := 0,
                   reserveAfter := toDbString g.reserve,
                   pendingAmountAfter := toDbString g.pendingAmount }) ∧
    (g.serviceRate = r →
      (records g (.setServiceRate r)
        ++ records (step g (.setServiceRate r)) (.setServiceRate r)).length = 0) ∧
    (g.serviceRate ≠ r → toDbString r = r →
      (records g (.setServiceRate r)
        ++ records (step g (.setServiceRate r)) (.setServiceRate r)).length = 1) ∧
    (g.serviceRate ≠ r → toDbString r ≠ r →
      (records g (.setServiceRate r)
        ++ records (step g (.setServiceRate r)) (.setServiceRate r)).length = 2) := by
  refine ⟨fun h => ?_, fun h => ?_, fun h => ?_, fun h hrep => ?_, fun h hnrep => ?_⟩
  · simp only [updateGroupServiceRate, if_pos h, step]
    exact ⟨trivial, trivial, rfl⟩
  · simp only [updateGroupServiceRate, if_neg h, step, recordTransaction]
    simp
  · simp [records, step, updateGroupServiceRate, if_pos h, h]
  · simp only [records, step, updateGroupServiceRate, if_neg h, Option.getD_some, hrep]
    simp
  · simp only [records, step, updateGroupServiceRate, if_neg h, Option.getD_some]
    rw [if_neg hnrep]
    simp

theorem c8_setServiceRate_amended_witness :
    (records freshGroup (.setServiceRate (1/20))
      ++ records (step freshGroup (.setServiceRate (1/20))) (.setServiceRate (1/20))).length = 1 ∧
    (records freshGroup (.setServiceRate (1/10000000))
      ++ records (step freshGroup (.setServiceRate (1/10000000)))
          (.setServiceRate (1/10000000))).length = 2 :=
  ⟨(c8_setServiceRate_amended freshGroup (1/20)).2.2.2.1 (by norm_num [freshGroup])
      (by norm_num [toDbString]),
    (c8_setServiceRate_amended freshGroup (1/10000000)).2.2.2.2 (by norm_num [freshGroup])
      (by norm_num [toDbString])⟩

/-- C9 counterexample: CreditPending with amount 0 on a fresh account
is not rejected by the engine: it commits, leaving the balances as they
were and appending one PENDING_ADD record with amount 0. -/
theorem c9_zeroAmount_counterexample :
    records freshGroup (Op.creditPending 0)
      = [{ type := "PENDING_ADD", amount := 0, reserveAfter := 0,
           pendingAmountAfter := 0 }] ∧
    step freshGroup (Op.creditPending 0) = freshGroup := by
  norm_num [records, step, addPendingAmount, calculateTotals, saveState,
    recordTransaction, freshGroup, toDbString]

/-- C9 (amended): zero amounts are rejected by the upstream command
parser (parseAmount maps 0 to null under either sign option); the
engine itself accepts amount 0 on each of the four mutating operations
and commits, appending exactly one transaction record. -/
theorem c9_zeroAmount_amended (g : GroupState) (hp : 0 ≤ g.pendingAmount) :
    (∀ b, parseAmount (some 0) b = none) ∧
    (records g (.creditPending 0)).length = 1 ∧
    (records g (.reducePending 0)).length = 1 ∧
    (records g (.depositToReserve 0)).length = 1 ∧
    (records g (.withdrawFromReserve 0)).length = 1 := by
  refine ⟨fun b => rfl, rfl, rfl, ?_, rfl⟩
  simp only [records, addReserve, calculateTotals]
  rw [if_neg (by linarith : ¬ g.pendingAmount < 0 + 0 * g.serviceRate)]
  rfl

theorem c9_zeroAmount_amended_witness :
    (records freshGroup (.creditPending 0)).length = 1 ∧
    (records freshGroup (.depositToReserve 0)).length = 1 := by
  have h := c9_zeroAmount_amended freshGroup (le_refl 0)
  exact ⟨h.2.1, h.2.2.2.1⟩

/-- C10: a CreditPending with amount a moves the quantity
pending - reserve by exactly total = a + a * rate, on both the
net-debit and the net-credit branch. -/
theorem c10_pendingMinusReserve_delta (g : GroupState) (a : ℚ) :
    ((addPendingAmount g a).result.state.pendingAmount
        - (addPendingAmount g a).result.state.reserve)
      - (g.pendingAmount - g.reserve) = a + a * g.serviceRate := by
  simp only [addPendingAmount, calculateTotals]
  split_ifs with h
  · simp only
    ring
  · simp only
    ring

end Billing
